import Mathlib

/-!
Shallow embedding of the friend-reminder application core.

Server side (friendContact router):
  the persisted store is a JSON array of contact records.  The route
  handlers load the array, transform it with plain list operations and
  JavaScript object-spread merges, and save it back.  We model JSON
  records with Lean structures, the possibly-malformed persisted
  `notes` value with an inductive `NotesField` (an array of notes, or
  any non-array JSON value), and object spread with `Option`-valued
  patch fields (`none` = key absent from the request body).

Client side (App component):
  the contact cache is a list whose `id` may be absent; the reminder
  checker is a `setInterval` tick that walks the cache, compares the
  combined remind date/time against the current clock, and fires a
  toast once per id per session, recording fired ids in the
  `shownReminders` set.  Date parsing is abstracted by a parameter
  `toTime : String → String → Int` (milliseconds of the combined
  local wall-clock instant).  Crucially, the membership test
  `shownReminders.has` inside one tick reads the render-scope
  snapshot of the set, while the queued functional updates
  `setShownReminders (prev => new Set(prev).add id)` accumulate and
  become visible only to later ticks.
-/

namespace FriendReminder

/-- A timestamped note attached to a contact. -/
structure ContactNote where
  content : String
  date : String
  time : String
deriving DecidableEq

/-- A persisted contact record as the server's handlers see it after
normalization (the TypeScript interface FriendContact). -/
structure FriendContact where
  id : String
  name : String
  contactPoint : String
  contactDetail : String
  notes : List ContactNote
  dateCreated : String
  remindDate : String
  remindTime : String
deriving DecidableEq

/-- The raw JSON value found under the key notes: either a proper
array of notes, or any non-array value (absent, null, string, ...).
This is exactly the distinction Array.isArray draws in the code. -/
inductive NotesField where
  | arr (ns : List ContactNote)
  | notArr
deriving DecidableEq

/-- A raw persisted record before loadContacts normalizes it: the
notes key may hold a non-array value. -/
structure StoredContact where
  id : String
  name : String
  contactPoint : String
  contactDetail : String
  notes : NotesField
  dateCreated : String
  remindDate : String
  remindTime : String
deriving DecidableEq

/-- The ternary `Array.isArray(x) ? x : []` used by loadContacts. -/
def normalizeNotes (n : NotesField) : List ContactNote :=
  match n with
  | NotesField.arr ns => ns
  | NotesField.notArr => []

/-- One record of loadContacts' map: spread the record and replace
notes by `Array.isArray(c.notes) ? c.notes : []`. -/
def normalizeContact (c : StoredContact) : FriendContact :=
  { id := c.id
  , name := c.name
  , contactPoint := c.contactPoint
  , contactDetail := c.contactDetail
  , notes := normalizeNotes c.notes
  , dateCreated := c.dateCreated
  , remindDate := c.remindDate
  , remindTime := c.remindTime }

/-- loadContacts: parse the file (a list of raw records) and map the
notes normalization over it. -/
def loadContacts (raw : List StoredContact) : List FriendContact :=
  raw.map normalizeContact

/-- The request body of POST /api/friend-contacts.  The TypeScript
interface requires the plain string fields; the body may additionally
carry an id key, and its notes key may be absent or malformed. -/
structure CreateBody where
  id : Option String
  name : String
  contactPoint : String
  contactDetail : String
  notes : Option NotesField
  dateCreated : String
  remindDate : String
  remindTime : String
deriving DecidableEq

/-- POST handler body, with Date.now() passed in as `now`:
`newContact = ⟨id: Date.now().toString(), ...req.body,
notes: Array.isArray(req.body.notes) ? req.body.notes : []⟩;
contacts.push(newContact)`.  Because `...req.body` is spread after
the id key, a body-supplied id overrides the minted one; the notes
key is written after the spread, so it is always the ternary's
result.  Returns the saved store and the created record. -/
def createContact (store : List FriendContact) (now : Nat) (body : CreateBody) :
    List FriendContact × FriendContact :=
  let newContact : FriendContact :=
    { id := body.id.getD (Nat.repr now)
    , name := body.name
    , contactPoint := body.contactPoint
    , contactDetail := body.contactDetail
    , notes :=
        match body.notes with
        | some (NotesField.arr ns) => ns
        | _ => []
    , dateCreated := body.dateCreated
    , remindDate := body.remindDate
    , remindTime := body.remindTime }
  (store ++ [newContact], newContact)

/-- The request body of PUT /api/friend-contacts/:id — a partial
record: `none` means the key is absent from the JSON body. -/
structure Patch where
  id : Option String
  name : Option String
  contactPoint : Option String
  contactDetail : Option String
  notes : Option NotesField
  dateCreated : Option String
  remindDate : Option String
  remindTime : Option String
deriving DecidableEq

/-- The patch with every key absent. -/
def emptyPatch : Patch :=
  { id := none, name := none, contactPoint := none, contactDetail := none
  , notes := none, dateCreated := none, remindDate := none, remindTime := none }

/-- The PUT handler's merge
`⟨...contacts[idx], ...req.body,
notes: Array.isArray(req.body.notes) ? req.body.notes : contacts[idx].notes⟩`:
each body key present overrides the stored field (including id, since
the body is spread after the stored record), and the notes key,
written last, keeps the stored notes unless the body's notes value is
a proper array. -/
def mergeContact (old : FriendContact) (p : Patch) : FriendContact :=
  { id := p.id.getD old.id
  , name := p.name.getD old.name
  , contactPoint := p.contactPoint.getD old.contactPoint
  , contactDetail := p.contactDetail.getD old.contactDetail
  , notes :=
      match p.notes with
      | some (NotesField.arr ns) => ns
      | _ => old.notes
  , dateCreated := p.dateCreated.getD old.dateCreated
  , remindDate := p.remindDate.getD old.remindDate
  , remindTime := p.remindTime.getD old.remindTime }

/-- `findIndex (c => c.id === id)` followed by replacing the record at
that index: recursively, replace the first record whose id matches and
return the new store together with the merged record; `none` when no
record matches (findIndex returned -1). -/
def updateFirst (i : String) (p : Patch) :
    List FriendContact → Option (List FriendContact × FriendContact)
  | [] => none
  | c :: cs =>
    if c.id = i then
      some (mergeContact c p :: cs, mergeContact c p)
    else
      match updateFirst i p cs with
      | none => none
      | some (cs2, u) => some (c :: cs2, u)

/-- Outcome of the PUT route: 404, or 200 with the merged contact. -/
inductive PutResponse where
  | notFound
  | ok (c : FriendContact)
deriving DecidableEq

/-- PUT handler: on a miss it responds 404 before saveContacts runs,
so the persisted store is unchanged; on a hit it saves the updated
store and returns the merged record. -/
def putContact (store : List FriendContact) (i : String) (p : Patch) :
    List FriendContact × PutResponse :=
  match updateFirst i p store with
  | none => (store, PutResponse.notFound)
  | some (cs2, u) => (cs2, PutResponse.ok u)

/-- DELETE handler: `contacts.filter (c => c.id !== id)` is saved
unconditionally and the route always responds 200. -/
def deleteContact (store : List FriendContact) (i : String) : List FriendContact :=
  store.filter (fun c => c.id ≠ i)

/-- A contact as the client cache holds it (interface ContactData):
the id key is optional. -/
structure ClientContact where
  id : Option String
  name : String
  contactPoint : String
  contactDetail : String
  notes : List ContactNote
  dateCreated : String
  remindDate : String
  remindTime : String
deriving DecidableEq

/-- The reminder checker's guard `if (!contact.id) return` skips a
contact whose id is absent or falsy; the empty string is falsy in
JavaScript, so a resolvable id is a present, non-empty id. -/
def resolvableId (c : ClientContact) : Option String :=
  match c.id with
  | none => none
  | some i => if i = "" then none else some i

/-- The payload of one toast raised by the reminder checker:
`Reminder: Contact NAME via CONTACTPOINT (CONTACTDETAIL)`. -/
structure Notification where
  name : String
  contactPoint : String
  contactDetail : String
deriving DecidableEq

/-- The toast raised for a contact carries its name, contact channel
and contact detail. -/
def notifOf (c : ClientContact) : Notification :=
  { name := c.name, contactPoint := c.contactPoint, contactDetail := c.contactDetail }

/-- One tick of the reminder checker over the cache, in cache order.
`toTime d t` abstracts `new Date(d + "T" + t).getTime()` (local
wall-clock milliseconds); `now` abstracts `new Date().getTime()`;
`snapshot` is the render-scope value of the shownReminders set, which
is what `shownReminders.has` reads for EVERY contact of the tick (the
queued `setShownReminders` functional updates do not become visible
inside the same tick).  Each firing contributes the pair of the id
added to the set and the toast emitted. -/
def tickEmits (toTime : String → String → Int) (now : Int)
    (snapshot : List String) : List ClientContact → List (String × Notification)
  | [] => []
  | c :: rest =>
    match resolvableId c with
    | none => tickEmits toTime now snapshot rest
    | some i =>
      if 0 ≤ toTime c.remindDate c.remindTime - now ∧
          toTime c.remindDate c.remindTime - now < 60000 ∧ i ∉ snapshot then
        (i, notifOf c) :: tickEmits toTime now snapshot rest
      else
        tickEmits toTime now snapshot rest

/-- Specification-side predicate: the due condition of one contact at
one tick — a resolvable id, not yet in the shown set, and
`0 <= remindInstant - now < 60000`. -/
def tickFires (toTime : String → String → Int) (now : Int)
    (snapshot : List String) (c : ClientContact) : Bool :=
  match resolvableId c with
  | none => false
  | some i =>
    decide (0 ≤ toTime c.remindDate c.remindTime - now) &&
      decide (toTime c.remindDate c.remindTime - now < 60000) &&
      !(decide (i ∈ snapshot))

/-- One tick: the emissions, and the shownReminders set after the
queued updates are applied (each `new Set(prev).add id` in order). -/
def tick (toTime : String → String → Int) (now : Int)
    (contacts : List ClientContact) (shown : List String) :
    List String × List (String × Notification) :=
  let es := tickEmits toTime now shown contacts
  (es.map Prod.fst ++ shown, es)

/-- A session: a sequence of ticks, each with its own clock reading
and its own cache contents (the cache may be edited between ticks),
threading the shownReminders set through; the set only ever grows.
Returns the final set and the concatenated emissions. -/
def runTicks (toTime : String → String → Int) :
    List (Int × List ClientContact) → List String →
    List String × List (String × Notification)
  | [], shown => (shown, [])
  | t :: rest, shown =>
    let st := tick toTime t.1 t.2 shown
    let rst := runTicks toTime rest st.1
    (rst.1, st.2 ++ rst.2)

/-- The display listing:
`[...contacts].sort((a, b) => ta - tb)` — a stable ascending sort by
the combined remind instant. -/
def displaySort (toTime : String → String → Int)
    (contacts : List ClientContact) : List ClientContact :=
  contacts.mergeSort fun a b =>
    decide (toTime a.remindDate a.remindTime ≤ toTime b.remindDate b.remindTime)

/-- A server contact record with the given id and name and fixed
remaining fields, used as concrete test data. -/
def mkContact (i nm : String) : FriendContact :=
  { id := i, name := nm, contactPoint := "Email", contactDetail := "x"
  , notes := [], dateCreated := "2025-01-01"
  , remindDate := "2025-09-30", remindTime := "12:00" }

/-- A client cache record with the given optional id and name, due at
remind instant "2025-09-30T12:00". -/
def mkClient (i : Option String) (nm : String) : ClientContact :=
  { id := i, name := nm, contactPoint := "Email", contactDetail := "x"
  , notes := [], dateCreated := "2025-01-01"
  , remindDate := "2025-09-30", remindTime := "12:00" }

/-- A POST body carrying no id and no notes key. -/
def plainBody (nm : String) : CreateBody :=
  { id := none, name := nm, contactPoint := "Email", contactDetail := "x"
  , notes := none, dateCreated := "2025-01-01"
  , remindDate := "2025-09-30", remindTime := "12:00" }

/-- A PUT body whose only key is an id. -/
def idPatch : Patch := { emptyPatch with id := some "2" }

/-- A PUT body whose only key is a name. -/
def namePatch : Patch := { emptyPatch with name := some "B" }

/-- A concrete note. -/
def noteA : ContactNote :=
  { content := "New Note", date := "2025-09-20", time := "08:00" }

/-- A PUT body whose only key is a proper notes array. -/
def notePatch : Patch := { emptyPatch with notes := some (NotesField.arr [noteA]) }

/-- A POST body carrying an explicit id key. -/
def customIdBody : CreateBody := { plainBody "C" with id := some "custom" }

/-- A degenerate clock: every remind instant is millisecond 0. -/
def toTime0 : String → String → Int := fun _ _ => 0

/-- A clock keyed on the date string's length, used to build concrete
orderings for the display sort. -/
def dateLen : String → String → Int := fun d _ => (d.length : Int)

/-- Client record with the shorter (earlier, under dateLen) date. -/
def earlyClient : ClientContact := { mkClient (some "e") "E" with remindDate := "d" }

/-- Client record with the longer (later, under dateLen) date. -/
def lateClient : ClientContact := { mkClient (some "l") "L" with remindDate := "dd" }

/-- When no record's id matches, findIndex returns -1 and the update
helper yields none. -/
theorem updateFirst_eq_none (i : String) (p : Patch) :
    ∀ store : List FriendContact, (∀ c ∈ store, c.id ≠ i) →
      updateFirst i p store = none
  | [], _ => rfl
  | c :: cs, h => by
    have hc : c.id ≠ i := h c (List.mem_cons_self c cs)
    have ih := updateFirst_eq_none i p cs fun x hx => h x (List.mem_cons_of_mem c hx)
    simp [updateFirst, hc, ih]

/-- When the target sits after a prefix of non-matching records, the
update helper replaces exactly it. -/
theorem updateFirst_append (p : Patch) (pre : FriendContact) (r : List FriendContact) :
    ∀ l : List FriendContact, (∀ x ∈ l, x.id ≠ pre.id) →
      updateFirst pre.id p (l ++ pre :: r) =
        some (l ++ mergeContact pre p :: r, mergeContact pre p)
  | [], _ => by simp [updateFirst]
  | c :: cs, h => by
    have hc : c.id ≠ pre.id := h c (List.mem_cons_self c cs)
    have ih := updateFirst_append p pre r cs fun x hx => h x (List.mem_cons_of_mem c hx)
    simp [updateFirst, hc, ih]

/-- A hit of the update helper with an id-less patch keeps the matched
id and the whole stored id sequence. -/
theorem updateFirst_some_id (i : String) (p : Patch) (hp : p.id = none) :
    ∀ (store cs2 : List FriendContact) (u : FriendContact),
      updateFirst i p store = some (cs2, u) →
      u.id = i ∧ cs2.map FriendContact.id = store.map FriendContact.id
  | [], _, _, h => by simp [updateFirst] at h
  | c :: cs, cs2, u, h => by
    by_cases hc : c.id = i
    · simp [updateFirst, hc] at h
      obtain ⟨h1, h2⟩ := h
      subst h1
      subst h2
      refine ⟨by simp [mergeContact, hp, hc], ?_⟩
      simp [mergeContact, hp]
    · simp [updateFirst, hc] at h
      cases hrec : updateFirst i p cs with
      | none => rw [hrec] at h; simp at h
      | some pr =>
        rw [hrec] at h
        simp at h
        obtain ⟨h1, h2⟩ := h
        subst h1
        subst h2
        have ih := updateFirst_some_id i p hp cs pr.1 pr.2 (by rw [hrec])
        exact ⟨ih.1, by simp [ih.2]⟩

/-- Claim C1: the claim fails on the code.  In the PUT handler the
request body is spread AFTER the stored record, so a body-supplied id
key overwrites the stored id: updating the contact stored with id "1"
by the patch whose only key is id "2" persists and returns a record
with id "2". -/
theorem C1_counterexample :
    putContact [mkContact "1" "A"] "1" idPatch =
      ([{ mkContact "1" "A" with id := "2" }],
        PutResponse.ok { mkContact "1" "A" with id := "2" }) ∧
    ({ mkContact "1" "A" with id := "2" } : FriendContact).id ≠ (mkContact "1" "A").id := by
  exact ⟨rfl, by decide⟩

/-- Claim C1 (amended): when the patch carries no id key, updateContact
preserves the record's id — the merged record returned has the target
id, and the persisted store's id sequence is unchanged. -/
theorem C1_update_preserves_id (store cs2 : List FriendContact) (i : String)
    (p : Patch) (u : FriendContact) (hp : p.id = none)
    (h : putContact store i p = (cs2, PutResponse.ok u)) :
    u.id = i ∧ cs2.map FriendContact.id = store.map FriendContact.id := by
  unfold putContact at h
  cases hrec : updateFirst i p store with
  | none => rw [hrec] at h; simp at h
  | some pr =>
    obtain ⟨a, b⟩ := pr
    rw [hrec] at h
    simp at h
    obtain ⟨h1, h2⟩ := h
    subst h1
    subst h2
    exact updateFirst_some_id i p hp store a b hrec

/-- Claim C1 witness at a concrete input. -/
theorem C1_witness :
    ({ mkContact "1" "A" with name := "B" } : FriendContact).id = "1" ∧
      ([{ mkContact "1" "A" with name := "B" }] : List FriendContact).map FriendContact.id =
        [mkContact "1" "A"].map FriendContact.id :=
  C1_update_preserves_id [mkContact "1" "A"] _ "1" namePatch _ rfl rfl

/-- Claim C2: the update merge law.  Updating the record stored with
the target id replaces exactly that record with the merged record and
leaves every other stored record untouched; on the merged record,
every field whose key is absent from the patch is identical to its
pre-update value, every string field whose key is present is replaced
by the patch's value, and notes is replaced exactly when the patch's
notes value is a proper sequence, otherwise preserved unchanged. -/
theorem C2_update_merge_law (pre : FriendContact) (p : Patch)
    (l r : List FriendContact) (hl : ∀ x ∈ l, x.id ≠ pre.id) :
    (putContact (l ++ pre :: r) pre.id p =
      (l ++ mergeContact pre p :: r, PutResponse.ok (mergeContact pre p))) ∧
    (p.name = none → (mergeContact pre p).name = pre.name) ∧
    (p.contactPoint = none → (mergeContact pre p).contactPoint = pre.contactPoint) ∧
    (p.contactDetail = none → (mergeContact pre p).contactDetail = pre.contactDetail) ∧
    (p.dateCreated = none → (mergeContact pre p).dateCreated = pre.dateCreated) ∧
    (p.remindDate = none → (mergeContact pre p).remindDate = pre.remindDate) ∧
    (p.remindTime = none → (mergeContact pre p).remindTime = pre.remindTime) ∧
    (p.id = none → (mergeContact pre p).id = pre.id) ∧
    (∀ v, p.name = some v → (mergeContact pre p).name = v) ∧
    (∀ v, p.contactPoint = some v → (mergeContact pre p).contactPoint = v) ∧
    (∀ v, p.contactDetail = some v → (mergeContact pre p).contactDetail = v) ∧
    (∀ v, p.dateCreated = some v → (mergeContact pre p).dateCreated = v) ∧
    (∀ v, p.remindDate = some v → (mergeContact pre p).remindDate = v) ∧
    (∀ v, p.remindTime = some v → (mergeContact pre p).remindTime = v) ∧
    (∀ ns, p.notes = some (NotesField.arr ns) → (mergeContact pre p).notes = ns) ∧
    ((∀ ns, p.notes ≠ some (NotesField.arr ns)) → (mergeContact pre p).notes = pre.notes) := by
  refine ⟨?_, ?_, ?_, ?_, ?_, ?_, ?_, ?_, ?_, ?_, ?_, ?_, ?_, ?_, ?_, ?_⟩
  · simp [putContact, updateFirst_append p pre r l hl]
  · intro h
    simp [mergeContact, h]
  · intro h
    simp [mergeContact, h]
  · intro h
    simp [mergeContact, h]
  · intro h
    simp [mergeContact, h]
  · intro h
    simp [mergeContact, h]
  · intro h
    simp [mergeContact, h]
  · intro h
    simp [mergeContact, h]
  · intro v h
    simp [mergeContact, h]
  · intro v h
    simp [mergeContact, h]
  · intro v h
    simp [mergeContact, h]
  · intro v h
    simp [mergeContact, h]
  · intro v h
    simp [mergeContact, h]
  · intro v h
    simp [mergeContact, h]
  · intro ns h
    simp [mergeContact, h]
  · intro h
    rcases hn : p.notes with - | nf
    · simp [mergeContact, hn]
    · cases nf with
      | arr ns => exact absurd hn (h ns)
      | notArr => simp [mergeContact, hn]

/-- Claim C2 witness at a concrete input: a notes-only patch on a
stored contact replaces the notes. -/
theorem C2_witness :
    putContact [mkContact "1" "A"] (mkContact "1" "A").id notePatch =
      ([mergeContact (mkContact "1" "A") notePatch],
        PutResponse.ok (mergeContact (mkContact "1" "A") notePatch)) :=
  (C2_update_merge_law (mkContact "1" "A") notePatch [] [] (by simp)).1

/-- The digit accumulator never shrinks to nil. -/
theorem toDigitsCore_ne_nil (b : Nat) :
    ∀ (fuel n : Nat) (ds : List Char), ds ≠ [] → Nat.toDigitsCore b fuel n ds ≠ []
  | 0, _, _, h => h
  | fuel + 1, n, ds, h => by
    unfold Nat.toDigitsCore
    by_cases h0 : n / b = 0
    · simp [h0]
    · simp only [h0, if_false]
      exact toDigitsCore_ne_nil b fuel (n / b) _ (by simp)

/-- Nat.toDigits always produces at least one digit. -/
theorem toDigits_ne_nil (b n : Nat) : Nat.toDigits b n ≠ [] := by
  unfold Nat.toDigits Nat.toDigitsCore
  by_cases h0 : n / b = 0
  · simp [h0]
  · simp only [h0, if_false]
    exact toDigitsCore_ne_nil b n (n / b) _ (by simp)

/-- The minted id Date.now().toString() is never the empty string. -/
theorem nat_repr_ne_empty (n : Nat) : Nat.repr n ≠ "" := by
  unfold Nat.repr
  intro h
  exact toDigits_ne_nil 10 n (by simpa [List.asString, String.ext_iff] using h)

/-- Claim C3: the claim fails on the code, twice over.  First, minting
uses the clock: a store already holding a record whose id equals the
current Date.now() string receives a duplicate id.  Second, because
the request body is spread after the minted id key, a body-supplied
id — here the empty string — replaces the minted one, so the returned
id need not be non-empty. -/
theorem C3_counterexample :
    ((createContact [mkContact "5" "A"] 5 (plainBody "B")).2.id = "5" ∧
      (mkContact "5" "A").id = "5") ∧
    (createContact [] 0 { plainBody "E" with id := some "" }).2.id = "" := by
  exact ⟨⟨rfl, rfl⟩, rfl⟩

/-- Claim C3 (amended): when the create body carries no id key and no
stored record's id equals the string of the current clock value, the
returned contact's id is non-empty and distinct from the id of every
contact already in the store. -/
theorem C3_fresh_id (store : List FriendContact) (now : Nat) (body : CreateBody)
    (h1 : body.id = none) (h2 : ∀ c ∈ store, c.id ≠ Nat.repr now) :
    (createContact store now body).2.id ≠ "" ∧
    ∀ c ∈ store, c.id ≠ (createContact store now body).2.id := by
  have hid : (createContact store now body).2.id = Nat.repr now := by
    simp [createContact, h1]
  rw [hid]
  exact ⟨nat_repr_ne_empty now, h2⟩

/-- Claim C3 witness at a concrete input. -/
theorem C3_witness :
    (createContact [mkContact "1" "A"] 7 (plainBody "B")).2.id ≠ "" ∧
    ∀ c ∈ [mkContact "1" "A"],
      c.id ≠ (createContact [mkContact "1" "A"] 7 (plainBody "B")).2.id :=
  C3_fresh_id [mkContact "1" "A"] 7 (plainBody "B") rfl (by decide)

/-- Claim C6: updating a nonexistent id — no stored record's id equals
the target — responds NotFound, and the persisted store is returned
exactly as it was (the handler returns before saveContacts runs). -/
theorem C6_update_not_found (store : List FriendContact) (i : String) (p : Patch)
    (h : ∀ c ∈ store, c.id ≠ i) :
    putContact store i p = (store, PutResponse.notFound) := by
  simp [putContact, updateFirst_eq_none i p store h]

/-- Claim C6 witness at a concrete input. -/
theorem C6_witness :
    putContact [mkContact "1" "A"] "missing" namePatch =
      ([mkContact "1" "A"], PutResponse.notFound) :=
  C6_update_not_found [mkContact "1" "A"] "missing" namePatch (by decide)

/-- Claim C7: deleteContact is a total function — every id succeeds,
never a NotFound failure; it is idempotent; after the first delete no
record with the target id remains; every record with a different id
remains in the store; and deleting an absent id is a no-op. -/
theorem C7_delete_idempotent (store : List FriendContact) (i : String) :
    deleteContact (deleteContact store i) i = deleteContact store i ∧
    (∀ c ∈ deleteContact store i, c.id ≠ i) ∧
    (∀ c ∈ store, c.id ≠ i → c ∈ deleteContact store i) ∧
    ((∀ c ∈ store, c.id ≠ i) → deleteContact store i = store) := by
  refine ⟨?_, ?_, ?_, ?_⟩
  · simp [deleteContact, List.filter_filter]
  · intro c hc
    rw [deleteContact, List.mem_filter] at hc
    simpa using hc.2
  · intro c hc h
    simp [deleteContact, List.mem_filter]
    exact ⟨hc, h⟩
  · intro h
    rw [deleteContact, List.filter_eq_self]
    intro c hc
    simpa using h c hc

/-- Claim C7 witness at a concrete input. -/
theorem C7_witness :
    mkContact "c" "C" ∈ deleteContact [mkContact "c" "C", mkContact "d" "D"] "d" :=
  (C7_delete_idempotent [mkContact "c" "C", mkContact "d" "D"] "d").2.2.1
    (mkContact "c" "C") (by simp) (by decide)

/-- Claim C8: notes is always a sequence.  Loading normalizes a
mistyped notes value to the empty sequence; create defaults an absent
or non-sequence notes value to the empty sequence; update keeps the
existing notes whenever the patch's notes value is not a proper
sequence, and stores exactly the patch's sequence when it is one —
so no operation ever stores a non-sequence notes value. -/
theorem C8_notes_always_sequence :
    (∀ r : StoredContact, r.notes = NotesField.notArr → (normalizeContact r).notes = []) ∧
    (∀ (store : List FriendContact) (now : Nat) (body : CreateBody),
      body.notes = none ∨ body.notes = some NotesField.notArr →
      (createContact store now body).2.notes = []) ∧
    (∀ (old : FriendContact) (p : Patch),
      (∀ ns, p.notes ≠ some (NotesField.arr ns)) →
      (mergeContact old p).notes = old.notes) ∧
    (∀ (old : FriendContact) (p : Patch) (ns : List ContactNote),
      p.notes = some (NotesField.arr ns) → (mergeContact old p).notes = ns) := by
  refine ⟨?_, ?_, ?_, ?_⟩
  · intro r h
    simp [normalizeContact, normalizeNotes, h]
  · intro store now body h
    rcases h with h | h <;> simp [createContact, h]
  · intro old p h
    rcases hn : p.notes with - | nf
    · simp [mergeContact, hn]
    · cases nf with
      | arr ns => exact absurd hn (h ns)
      | notArr => simp [mergeContact, hn]
  · intro old p ns h
    simp [mergeContact, h]

/-- Claim C8 witness at a concrete input. -/
theorem C8_witness : (createContact [] 3 (plainBody "E")).2.notes = [] :=
  C8_notes_always_sequence.2.1 [] 3 (plainBody "E") (Or.inl rfl)

/-- Claim C10: because the POST handler spreads the request body after
the minted id key, a body that carries an id field wins: the created
and persisted contact's id is the body's id, not the minted
Date.now() string. -/
theorem C10_body_id_overrides_minted :
    (createContact [] 99 customIdBody).2.id = "custom" ∧
    (createContact [] 99 customIdBody).1 = [(createContact [] 99 customIdBody).2] ∧
    customIdBody.id = some "custom" ∧
    Nat.repr 99 ≠ "custom" := by
  exact ⟨rfl, rfl, rfl, by decide⟩

/-- On a contact with a resolvable id, the due predicate is the
decision of the conjunction the tick tests. -/
theorem tickFires_eq_decide (toTime : String → String → Int) (now : Int)
    (shown : List String) (c : ClientContact) (i : String)
    (hr : resolvableId c = some i) :
    tickFires toTime now shown c =
      decide (0 ≤ toTime c.remindDate c.remindTime - now ∧
        toTime c.remindDate c.remindTime - now < 60000 ∧ i ∉ shown) := by
  by_cases h1 : 0 ≤ toTime c.remindDate c.remindTime - now <;>
    by_cases h2 : toTime c.remindDate c.remindTime - now < 60000 <;>
      by_cases h3 : i ∈ shown <;>
        simp [tickFires, hr, h1, h2, h3]

/-- Claim C4: one tick emits, in cache order, exactly one notification
per cached contact that has a resolvable id, is not yet in the shown
set, and whose delta = remindDateTime - now satisfies
0 <= delta < 60000; each notification carries the contact's name,
contact channel and contact detail (notifOf), and contacts without a
resolvable id contribute nothing. -/
theorem C4_tick_fires_exactly_due (toTime : String → String → Int) (now : Int)
    (shown : List String) (contacts : List ClientContact) :
    tickEmits toTime now shown contacts =
      (contacts.filter (tickFires toTime now shown)).map
        fun c => ((resolvableId c).getD "", notifOf c) := by
  induction contacts with
  | nil => rfl
  | cons c rest ih =>
    rw [List.filter_cons]
    cases hr : resolvableId c with
    | none =>
      have hf : tickFires toTime now shown c = false := by simp [tickFires, hr]
      simp [tickEmits, hr, hf, ih]
    | some i =>
      by_cases hdue : 0 ≤ toTime c.remindDate c.remindTime - now ∧
          toTime c.remindDate c.remindTime - now < 60000 ∧ i ∉ shown
      · have hf : tickFires toTime now shown c = true := by
          rw [tickFires_eq_decide toTime now shown c i hr]
          exact decide_eq_true hdue
        have hstep : tickEmits toTime now shown (c :: rest) =
            (i, notifOf c) :: tickEmits toTime now shown rest := by
          simp only [tickEmits, hr]
          rw [if_pos hdue]
        rw [hstep, ih, hf]
        simp [hr]
      · have hf : tickFires toTime now shown c = false := by
          rw [tickFires_eq_decide toTime now shown c i hr]
          simpa using hdue
        have hstep : tickEmits toTime now shown (c :: rest) =
            tickEmits toTime now shown rest := by
          simp only [tickEmits, hr]
          rw [if_neg hdue]
        rw [hstep, ih, hf]
        simp

/-- A tick never fires an id already in the shown-set snapshot. -/
theorem tickEmits_fst_not_shown (toTime : String → String → Int) (now : Int) :
    ∀ (snapshot : List String) (cs : List ClientContact),
      ∀ e ∈ tickEmits toTime now snapshot cs, e.1 ∉ snapshot
  | _, [], _, he => absurd he (List.not_mem_nil _)
  | snapshot, c :: rest, e, he => by
    cases hr : resolvableId c with
    | none =>
      simp only [tickEmits, hr] at he
      exact tickEmits_fst_not_shown toTime now snapshot rest e he
    | some i =>
      simp only [tickEmits, hr] at he
      by_cases hdue : 0 ≤ toTime c.remindDate c.remindTime - now ∧
          toTime c.remindDate c.remindTime - now < 60000 ∧ i ∉ snapshot
      · rw [if_pos hdue] at he
        rcases List.mem_cons.mp he with he | he
        · rw [he]
          exact hdue.2.2
        · exact tickEmits_fst_not_shown toTime now snapshot rest e he
      · rw [if_neg hdue] at he
        exact tickEmits_fst_not_shown toTime now snapshot rest e he

/-- The ids fired by one tick form a sublist of the cache's resolvable
ids, in cache order. -/
theorem tickEmits_fst_sublist (toTime : String → String → Int) (now : Int)
    (snapshot : List String) :
    ∀ cs : List ClientContact,
      List.Sublist ((tickEmits toTime now snapshot cs).map Prod.fst)
        (cs.filterMap resolvableId)
  | [] => List.Sublist.refl _
  | c :: rest => by
    rw [List.filterMap_cons]
    cases hr : resolvableId c with
    | none =>
      simp only [tickEmits, hr]
      exact tickEmits_fst_sublist toTime now snapshot rest
    | some i =>
      simp only [tickEmits, hr]
      by_cases hdue : 0 ≤ toTime c.remindDate c.remindTime - now ∧
          toTime c.remindDate c.remindTime - now < 60000 ∧ i ∉ snapshot
      · rw [if_pos hdue, List.map_cons]
        exact (tickEmits_fst_sublist toTime now snapshot rest).cons₂ i
      · rw [if_neg hdue]
        exact (tickEmits_fst_sublist toTime now snapshot rest).cons i

/-- An id already shown is never fired by the tick (count form). -/
theorem tickEmits_count_shown (toTime : String → String → Int) (now : Int)
    (snapshot : List String) (cs : List ClientContact) (i : String)
    (hi : i ∈ snapshot) :
    ((tickEmits toTime now snapshot cs).map Prod.fst).count i = 0 := by
  rw [List.count_eq_zero]
  intro hmem
  rcases List.mem_map.mp hmem with ⟨e, he, hei⟩
  exact tickEmits_fst_not_shown toTime now snapshot cs e he (hei ▸ hi)

/-- When the cache's resolvable ids are pairwise distinct, one tick
fires any given id at most once. -/
theorem tickEmits_count_le_one (toTime : String → String → Int) (now : Int)
    (snapshot : List String) (cs : List ClientContact) (i : String)
    (hnd : (cs.filterMap resolvableId).Nodup) :
    ((tickEmits toTime now snapshot cs).map Prod.fst).count i ≤ 1 :=
  le_trans ((tickEmits_fst_sublist toTime now snapshot cs).count_le i)
    (List.nodup_iff_count_le_one.mp hnd i)

/-- Session invariant: over a run whose every tick has pairwise
distinct resolvable ids, each id fires at most once, and an id that
starts in the shown set never fires at all. -/
theorem runTicks_fire_count (toTime : String → String → Int) (i : String) :
    ∀ (ticks : List (Int × List ClientContact)) (shown : List String),
      (∀ t ∈ ticks, (t.2.filterMap resolvableId).Nodup) →
      ((runTicks toTime ticks shown).2.map Prod.fst).count i ≤ 1 ∧
        (i ∈ shown → ((runTicks toTime ticks shown).2.map Prod.fst).count i = 0)
  | [], shown, _ => by simp [runTicks]
  | t :: rest, shown, h => by
    obtain ⟨now, cs⟩ := t
    have hnd : (cs.filterMap resolvableId).Nodup :=
      h (now, cs) (List.mem_cons_self _ _)
    have hrest := runTicks_fire_count toTime i rest
      ((tickEmits toTime now shown cs).map Prod.fst ++ shown)
      fun t ht => h t (List.mem_cons_of_mem _ ht)
    rw [runTicks]
    simp only [tick, List.map_append, List.count_append]
    constructor
    · by_cases hm : i ∈ (tickEmits toTime now shown cs).map Prod.fst
      · have h0 : ((runTicks toTime rest
            ((tickEmits toTime now shown cs).map Prod.fst ++ shown)).2.map
              Prod.fst).count i = 0 :=
          hrest.2 (List.mem_append_left shown hm)
        rw [h0]
        simpa using tickEmits_count_le_one toTime now shown cs i hnd
      · rw [List.count_eq_zero.mpr hm]
        simpa using hrest.1
    · intro hi
      rw [tickEmits_count_shown toTime now shown cs i hi,
        hrest.2 (List.mem_append_right _ hi)]

/-- Claim C5: the claim fails on the code.  The tick's membership test
reads the render-scope snapshot of shownReminders for every contact of
the tick, so when two cached contacts share the resolvable id "a" and
both are due, one single tick emits two notifications for that id. -/
theorem C5_counterexample :
    ((runTicks toTime0 [(0, [mkClient (some "a") "A", mkClient (some "a") "B"])]
      []).2.map Prod.fst).count "a" = 2 := rfl

/-- Claim C5 (amended): provided no two cached contacts share a
resolvable id at any tick, at most one notification is ever emitted
for any id over the whole session; moreover once an id is in the
shown set, no later tick ever fires it again — even though the ticks'
caches are arbitrary, so the reminder date/time may have been edited
to any future value. -/
theorem C5_at_most_one_per_id (toTime : String → String → Int)
    (ticks : List (Int × List ClientContact)) (i : String)
    (h : ∀ t ∈ ticks, (t.2.filterMap resolvableId).Nodup) :
    ((runTicks toTime ticks []).2.map Prod.fst).count i ≤ 1 ∧
    ∀ shown, i ∈ shown →
      ((runTicks toTime ticks shown).2.map Prod.fst).count i = 0 :=
  ⟨(runTicks_fire_count toTime i ticks [] h).1,
    fun shown hi => (runTicks_fire_count toTime i ticks shown h).2 hi⟩

/-- Claim C5 witness at a concrete input. -/
theorem C5_witness :
    ((runTicks toTime0 [(0, [mkClient (some "a") "A"])] []).2.map Prod.fst).count "a" ≤ 1 ∧
    ∀ shown, "a" ∈ shown →
      ((runTicks toTime0 [(0, [mkClient (some "a") "A"])] shown).2.map Prod.fst).count "a" = 0 :=
  C5_at_most_one_per_id toTime0 [(0, [mkClient (some "a") "A"])] "a" (by decide)

/-- Claim C9: the display listing sorts ascending by the combined
remind instant — any cached contact with the strictly smaller remind
timestamp appears at a strictly earlier display position than one with
a larger timestamp, whatever the cache (creation) order was. -/
theorem C9_display_sorted (toTime : String → String → Int)
    (contacts : List ClientContact) (a b : ClientContact)
    (ha : a ∈ contacts) (hb : b ∈ contacts)
    (hab : toTime a.remindDate a.remindTime < toTime b.remindDate b.remindTime) :
    ∃ i j : Nat, i < j ∧ (displaySort toTime contacts)[i]? = some a ∧
      (displaySort toTime contacts)[j]? = some b := by
  classical
  have hperm : (displaySort toTime contacts).Perm contacts :=
    List.mergeSort_perm contacts _
  have has : a ∈ displaySort toTime contacts := hperm.mem_iff.mpr ha
  have hbs : b ∈ displaySort toTime contacts := hperm.mem_iff.mpr hb
  have hpw : List.Pairwise
      (fun x y : ClientContact =>
        (decide (toTime x.remindDate x.remindTime ≤ toTime y.remindDate y.remindTime)) = true)
      (displaySort toTime contacts) := by
    unfold displaySort
    exact List.sorted_mergeSort
      (fun x y z hxy hyz => by
        simp only [decide_eq_true_eq] at hxy hyz ⊢
        exact le_trans hxy hyz)
      (fun x y => by
        simp only [Bool.or_eq_true, decide_eq_true_eq]
        exact le_total _ _)
      contacts
  have hi : (displaySort toTime contacts).indexOf a < (displaySort toTime contacts).length :=
    List.indexOf_lt_length.mpr has
  have hj : (displaySort toTime contacts).indexOf b < (displaySort toTime contacts).length :=
    List.indexOf_lt_length.mpr hbs
  have hne : a ≠ b := by
    intro he
    rw [he] at hab
    exact lt_irrefl _ hab
  have hij : (displaySort toTime contacts).indexOf a ≠ (displaySort toTime contacts).indexOf b := by
    intro he
    apply hne
    rw [← List.getElem_indexOf hi, ← List.getElem_indexOf hj]
    simp only [he]
  have hlt : (displaySort toTime contacts).indexOf a < (displaySort toTime contacts).indexOf b := by
    rcases Nat.lt_or_ge ((displaySort toTime contacts).indexOf a)
        ((displaySort toTime contacts).indexOf b) with h | h
    · exact h
    · exfalso
      have hgt : (displaySort toTime contacts).indexOf b <
          (displaySort toTime contacts).indexOf a :=
        Nat.lt_of_le_of_ne h fun e => hij e.symm
    -- the sorted pairwise relation at the two positions contradicts hab
      have hp := List.pairwise_iff_getElem.mp hpw
        ((displaySort toTime contacts).indexOf b)
        ((displaySort toTime contacts).indexOf a) hj hi hgt
      rw [List.getElem_indexOf hj, List.getElem_indexOf hi] at hp
      simp only [decide_eq_true_eq] at hp
      exact absurd hab (not_lt.mpr hp)
  refine ⟨(displaySort toTime contacts).indexOf a,
    (displaySort toTime contacts).indexOf b, hlt, ?_, ?_⟩
  · rw [List.getElem?_eq_getElem hi, List.getElem_indexOf hi]
  · rw [List.getElem?_eq_getElem hj, List.getElem_indexOf hj]

/-- Claim C9 witness at a concrete input: under the dateLen clock the
early contact (timestamp 1) is listed before the late one
(timestamp 2) although it was appended to the cache after it. -/
theorem C9_witness :
    ∃ i j : Nat, i < j ∧
      (displaySort dateLen [lateClient, earlyClient])[i]? = some earlyClient ∧
      (displaySort dateLen [lateClient, earlyClient])[j]? = some lateClient :=
  C9_display_sorted dateLen [lateClient, earlyClient] earlyClient lateClient
    (by decide) (by decide) (by decide)

end FriendReminder
